import Mathlib

/-!
Verification development for the lottery draw-data acquisition subsystem.

The Python source is shallowly embedded at the boundary of its I/O
libraries: HTML/JSON extraction primitives (BeautifulSoup cell texts,
`re` match results, JSON field lookups) become explicit inputs of the
embedded functions, and every function body is a direct translation of
the corresponding Python body.  File and network effects are modelled by
explicit state records threaded through the functions.
-/

namespace LotteryModel

/-- Python `str.isdigit()` on ASCII content: non-empty and every character
is a decimal digit. -/
def pyIsdigit (s : String) : Bool :=
  !s.isEmpty && s.data.all Char.isDigit

/-- Python `int()` applied to a decimal-digit string.  In the embedding it
is only applied under a `pyIsdigit` guard (mirroring the source, where
`int(...)` is guarded by `isdigit()` or wrapped in try/except). -/
def strToNat (s : String) : Nat :=
  s.data.foldl (fun n c => n * 10 + (c.toNat - 48)) 0

/-- Python `sorted()` on a list of naturals: stable ascending sort. -/
def pySorted (l : List Nat) : List Nat :=
  List.insertionSort (fun a b => a ≤ b) l

/-- Python `sorted()` on a list of integers. -/
def pySortedInt (l : List Int) : List Int :=
  List.insertionSort (fun a b => a ≤ b) l

/-- Python `.replace(',', '')`: remove every comma (single-character
pattern, so deletion of each occurrence). -/
def stripCommas (s : String) : String :=
  String.mk (s.data.filter (fun c => c != ','))

/-- Zero-padded rendering used by the f-string `{n:02d}`. -/
def pad2 (n : Nat) : String :=
  if n < 10 then "0" ++ toString n else toString n

/-- Attempts the regex fragment `\d{4}-\d{2}-\d{2}` at the head of the
character list. -/
def dateHere : List Char → Option String
  | y1 :: y2 :: y3 :: y4 :: c1 :: m1 :: m2 :: c2 :: d1 :: d2 :: _ =>
    if y1.isDigit && y2.isDigit && y3.isDigit && y4.isDigit && c1 == '-' &&
       m1.isDigit && m2.isDigit && c2 == '-' && d1.isDigit && d2.isDigit
    then some (String.mk [y1, y2, y3, y4, c1, m1, m2, c2, d1, d2])
    else none
  | _ => none

/-- `re.search(r'(\d{4}-\d{2}-\d{2})', s)`: scan left to right, return the
first match. -/
def findDateChars : List Char → Option String
  | [] => none
  | c :: rest =>
    match dateHere (c :: rest) with
    | some d => some d
    | none => findDateChars rest

/-- Date extraction from a cell text, as in `_parse_ssq_table` /
`_parse_dlt_table`. -/
def findDate (s : String) : Option String :=
  findDateChars s.data

/-- A ssq draw record as built by `DataSpider._parse_ssq_table` and
`DataSpider._parse_ssq_page` (the `lottery_type` field is the constant
string `ssq` and is omitted). -/
structure SsqRec where
  period : String
  date : String
  red_balls : List Nat
  blue_ball : Nat
  sale_amount : Nat
  pool_amount : Nat
deriving DecidableEq, Repr

/-- A dlt draw record as built by `DataSpider._parse_dlt_table` and
`DataSpider._parse_dlt_page`. -/
structure DltRec where
  period : String
  date : String
  front_balls : List Nat
  back_balls : List Nat
  sale_amount : Nat
  pool_amount : Nat
deriving DecidableEq, Repr

/-- One body iteration of the row loop of `DataSpider._parse_ssq_table`.
The input is the list of `td` cell texts of one table row (each already
passed through `get_text(strip=True)`); `none` means the row is skipped
(`continue`). -/
def parseSsqRow (cells : List String) : Option SsqRec :=
  if cells.length < 8 then none
  else
    let period := cells.headD ""
    if pyIsdigit period = false then none
    else
      let reds := ((cells.drop 1).take 6).filterMap
        (fun t => if pyIsdigit t then some (strToNat t) else none)
      if reds.length ≠ 6 then none
      else
        let blueText := (cells.drop 7).headD ""
        let blue := if pyIsdigit blueText then strToNat blueText else 0
        let saleText := stripCommas ((cells.drop (cells.length - 3)).headD "")
        let sale := if pyIsdigit saleText then strToNat saleText else 0
        let dateText := (cells.drop (cells.length - 1)).headD ""
        some { period := period, date := (findDate dateText).getD "",
               red_balls := pySorted reds, blue_ball := blue,
               sale_amount := sale, pool_amount := 0 }

/-- `DataSpider._parse_ssq_table`: the located `tablelist` rows are the
input (absence of the table is the empty input); the first two header
rows are skipped, every remaining row goes through `parseSsqRow`. -/
def parse_ssq_table (rows : List (List String)) : List SsqRec :=
  (rows.drop 2).filterMap parseSsqRow

/-- One body iteration of the row loop of `DataSpider._parse_dlt_table`. -/
def parseDltRow (cells : List String) : Option DltRec :=
  if cells.length < 8 then none
  else
    let period := cells.headD ""
    if pyIsdigit period = false then none
    else
      let fronts := ((cells.drop 1).take 5).filterMap
        (fun t => if pyIsdigit t then some (strToNat t) else none)
      if fronts.length ≠ 5 then none
      else
        let backs := ((cells.drop 6).take 2).filterMap
          (fun t => if pyIsdigit t then some (strToNat t) else none)
        if backs.length ≠ 2 then none
        else
          let saleText := stripCommas ((cells.drop (cells.length - 3)).headD "")
          let sale := if pyIsdigit saleText then strToNat saleText else 0
          let dateText := (cells.drop (cells.length - 1)).headD ""
          some { period := period, date := (findDate dateText).getD "",
                 front_balls := pySorted fronts, back_balls := pySorted backs,
                 sale_amount := sale, pool_amount := 0 }

/-- `DataSpider._parse_dlt_table`. -/
def parse_dlt_table (rows : List (List String)) : List DltRec :=
  (rows.drop 2).filterMap parseDltRow

/-- First successful match of an ordered chain of regex patterns
(`for pattern in patterns: if re.search(...): break`): the inputs are the
per-pattern captured groups, `none` for a pattern that does not match
(or, for dlt amount patterns, whose converter raises). -/
def firstSome (l : List (Option String)) : Option String :=
  (l.filterMap id).head?

/-- Amount post-processing shared by the single-page parsers: the matched
group has commas removed, then `int(...)` is applied when the text is all
digits, else the default 0 is kept. -/
def amountFrom (m : Option String) : Nat :=
  let t := match m with
    | some g => stripCommas g
    | none => "0"
  if pyIsdigit t then strToNat t else 0

/-- `DataSpider._parse_ssq_page`.  Regex extraction results are the
inputs: `periodM` the group of `期\s+(\d+)`, `dateM` the three groups of
the year/month/day pattern, `allBalls` the `findall` matches of the
`class="ball"` pattern (each a two-digit string), `saleM`/`poolM` the
per-pattern groups of the amount chains. -/
def parseSsqPage (fallbackPeriod : String) (periodM : Option String)
    (dateM : Option (String × String × String)) (allBalls : List String)
    (saleM poolM : List (Option String)) : Option SsqRec :=
  let period := periodM.getD fallbackPeriod
  let date :=
    match dateM with
    | some (y, mo, d) => y ++ "-" ++ pad2 (strToNat mo) ++ "-" ++ pad2 (strToNat d)
    | none => ""
  if 7 ≤ allBalls.length then
    some { period := period, date := date,
           red_balls := pySorted ((allBalls.take 6).map strToNat),
           blue_ball := strToNat ((allBalls.drop 6).headD ""),
           sale_amount := amountFrom (firstSome saleM),
           pool_amount := amountFrom (firstSome poolM) }
  else if 6 ≤ allBalls.length then
    some { period := period, date := date,
           red_balls := pySorted ((allBalls.take 6).map strToNat),
           blue_ball := 0,
           sale_amount := amountFrom (firstSome saleM),
           pool_amount := amountFrom (firstSome poolM) }
  else none

/-- `DataSpider._parse_dlt_page`. -/
def parseDltPage (fallbackPeriod : String) (periodM : Option String)
    (dateM : Option (String × String × String)) (allBalls : List String)
    (saleM poolM : List (Option String)) : Option DltRec :=
  let period := periodM.getD fallbackPeriod
  let date :=
    match dateM with
    | some (y, mo, d) => y ++ "-" ++ pad2 (strToNat mo) ++ "-" ++ pad2 (strToNat d)
    | none => ""
  if 7 ≤ allBalls.length then
    some { period := period, date := date,
           front_balls := pySorted ((allBalls.take 5).map strToNat),
           back_balls := pySorted (((allBalls.drop 5).take 2).map strToNat),
           sale_amount := amountFrom (firstSome saleM),
           pool_amount := amountFrom (firstSome poolM) }
  else if 5 ≤ allBalls.length then
    some { period := period, date := date,
           front_balls := pySorted ((allBalls.take 5).map strToNat),
           back_balls := [],
           sale_amount := amountFrom (firstSome saleM),
           pool_amount := amountFrom (firstSome poolM) }
  else none

/-- An API ssq record as assembled by `LotteryAPIClient._parse_records`
(string fields copied verbatim from the JSON are kept as strings). -/
structure ApiSsqRec where
  period : String
  date : String
  open_time : String
  red_balls : List Int
  blue_ball : Int
deriving DecidableEq, Repr

/-- `LotteryAPIClient._parse_reds`.  Each argument is the contributed
value of the JSON fields `one` .. `six`: `some v` when the field is
present, truthy, and `int()` converts it to `v`; `none` when the field is
absent (`get` default 0), falsy, or `int()` raises (all of which `continue`
past the field in the source). -/
def parse_reds (f1 f2 f3 f4 f5 f6 : Option Int) : List Int :=
  pySortedInt ([f1, f2, f3, f4, f5, f6].filterMap id)

/-- `LotteryAPIClient._parse_blues` on the contributed value of field
`seven` (0 both for a falsy field and for a failed conversion). -/
def parse_blues (f7 : Option Int) : Int :=
  f7.getD 0

/-- One iteration of the record loop of `LotteryAPIClient._parse_records`
for ssq: the record is always appended, whatever the ball fields held. -/
def apiParseSsqRecord (code day openT : String)
    (f1 f2 f3 f4 f5 f6 f7 : Option Int) : ApiSsqRec :=
  { period := code, date := day, open_time := openT,
    red_balls := parse_reds f1 f2 f3 f4 f5 f6,
    blue_ball := parse_blues f7 }

/-- Outcome of one HTTP attempt inside `DataSpider._fetch_with_retry`:
a body text, the 429-like rate-limit status 409, or a
`requests.RequestException` (timeouts, resets, and the `raise_for_status`
of any other error status). -/
inductive FetchResp where
  | ok (text : String)
  | rateLimit
  | netErr
deriving DecidableEq, Repr

/-- Whether a response ends the retry loop successfully. -/
def FetchResp.isOk : FetchResp → Bool
  | .ok _ => true
  | _ => false

/-- Observable trace of one `_fetch_with_retry` call: the returned value,
the backoff sleeps issued (`time.sleep` arguments in seconds, excluding
the unconditional `_random_delay` pacing), and the number of HTTP
attempts made. -/
structure RetryTrace where
  result : Option String
  waits : List Nat
  attempts : Nat
deriving DecidableEq, Repr

/-- The retry loop of `DataSpider._fetch_with_retry`, unrolled on the
remaining iteration count (`rem` starts at `maxRetries`, `attempt` at 0).
A 409 sleeps `5 * (attempt + 1)` and continues; an exception sleeps
`3 * (attempt + 1)` only when `attempt < max_retries - 1`; falling off
the loop returns `None`. -/
def fetchRetryAux (maxRetries : Nat) (resp : Nat → FetchResp) :
    Nat → Nat → RetryTrace
  | 0, _ => ⟨none, [], 0⟩
  | rem + 1, attempt =>
    match resp attempt with
    | .ok t => ⟨some t, [], 1⟩
    | .rateLimit =>
      let p := fetchRetryAux maxRetries resp rem (attempt + 1)
      ⟨p.result, 5 * (attempt + 1) :: p.waits, p.attempts + 1⟩
    | .netErr =>
      if attempt < maxRetries - 1 then
        let p := fetchRetryAux maxRetries resp rem (attempt + 1)
        ⟨p.result, 3 * (attempt + 1) :: p.waits, p.attempts + 1⟩
      else
        let p := fetchRetryAux maxRetries resp rem (attempt + 1)
        ⟨p.result, p.waits, p.attempts + 1⟩

/-- `DataSpider._fetch_with_retry` for a fixed URL, the network modelled
as the response each attempt number would receive. -/
def fetchWithRetry (maxRetries : Nat) (resp : Nat → FetchResp) : RetryTrace :=
  fetchRetryAux maxRetries resp maxRetries 0

/-- Key function of `DataSpider.get_latest_period`:
`int(x) if x.isdigit() else 0`. -/
def periodKey (s : String) : Nat :=
  if pyIsdigit s then strToNat s else 0

/-- Python `max(matches, key=...)`: scan keeping the first element whose
key no later element strictly exceeds. -/
def maxByPeriodKey (best : String) : List String → String
  | [] => best
  | x :: xs => maxByPeriodKey (if periodKey best < periodKey x then x else best) xs

/-- `DataSpider.get_latest_period`: `matchesQ` is `re.findall` of the
game-type pattern over the landing page (`none` when fetching the page
itself failed); an empty match list yields `None`, otherwise the maximum
by integer value. -/
def getLatestPeriod (matchesQ : Option (List String)) : Option String :=
  match matchesQ with
  | none => none
  | some [] => none
  | some (m :: ms) => some (maxByPeriodKey m ms)

/-- `DataSpider.update_to_latest`, generic over the record type of the
game (`periodOf` reads the `period` field).  Inputs: the loaded history
file content, the landing-page matches feeding `get_latest_period`, and
the fetch+parse outcome for the single-period range request (`none` when
`_fetch_with_retry` returned `None`, `some []` when the parser found no
record).  Output: the returned history and whether `save_history` ran. -/
def updateToLatest {α : Type} (periodOf : α → String) (existing : List α)
    (matchesQ : Option (List String)) (fetched : Option (List α)) :
    List α × Bool :=
  match getLatestPeriod matchesQ with
  | none => (existing, false)
  | some lp =>
    let fetchPath : List α × Bool :=
      match fetched with
      | none => (existing, false)
      | some [] => (existing, false)
      | some (nd :: _) => (nd :: existing.take 29, true)
    match existing with
    | [] => fetchPath
    | e0 :: _ => if periodOf e0 = lp then (existing, false) else fetchPath

/-- Sort key of `fetch_history`'s final sort:
`int(x.get('period', 0))` (only applied to parsed records, whose period
passed the `isdigit` guard). -/
def periodNum (r : SsqRec) : Nat :=
  strToNat r.period

/-- Descending comparison used by `fetch_history`'s final sort. -/
def periodDescRel (a b : SsqRec) : Prop :=
  periodNum b ≤ periodNum a

instance : DecidableRel periodDescRel :=
  fun _ _ => Nat.decLe _ _

instance : IsTotal SsqRec periodDescRel :=
  ⟨fun a b => Nat.le_total (periodNum b) (periodNum a)⟩

instance : IsTrans SsqRec periodDescRel :=
  ⟨fun _ _ _ h1 h2 => Nat.le_trans h2 h1⟩

/-- `DataSpider.fetch_history` (ssq instance): requires a latest period,
fetches the ranged history page (`rowsQ`, `none` on fetch failure),
parses it and sorts the records by integer period, descending
(`list.sort` with `reverse=True` is a stable descending sort, which the
right-insertion `insertionSort` with relation `periodNum b ≤ periodNum a`
reproduces). -/
def fetch_history (matchesQ : Option (List String))
    (rowsQ : Option (List (List String))) : List SsqRec :=
  match getLatestPeriod matchesQ with
  | none => []
  | some _ =>
    match rowsQ with
    | none => []
    | some rows => List.insertionSort periodDescRel (parse_ssq_table rows)

/-- The on-disk cache directory of `CacheManager`, as a map from
`(lottery_type, cache_type)` to the `timestamp` field of the stored JSON
(`none` when the file does not exist).  Times are modelled as integers in
a single unit; the TTL is `timedelta(hours=ttl_hours)` expressed in that
unit. -/
def CacheStore : Type :=
  String → String → Option Int

/-- `CacheManager.is_cache_valid`: missing file is invalid, otherwise the
stored timestamp must satisfy `now - timestamp < ttl` strictly. -/
def is_cache_valid (s : CacheStore) (now ttl : Int) (lt ct : String) : Bool :=
  match s lt ct with
  | none => false
  | some ts => decide (now - ts < ttl)

/-- `CacheManager.clear_expired_cache`: for both game types but only for
the three fixed kinds `latest`, `history`, `statistics`, delete the file
when it exists and `is_cache_valid` fails; every other key is left
untouched. -/
def clear_expired_cache (s : CacheStore) (now ttl : Int) : CacheStore :=
  fun lt ct =>
    match s lt ct with
    | none => none
    | some ts =>
      if (lt = "ssq" ∨ lt = "dlt") ∧
         (ct = "latest" ∨ ct = "history" ∨ ct = "statistics") ∧
         ¬ (now - ts < ttl)
      then none else some ts

/-- A record at the `LotteryDataFetcher` level; only the `period` field
is inspected by the claims about that layer. -/
structure FRec where
  period : String
deriving DecidableEq, Repr

/-- A stored rolling-history cache file (`history_N` kind): payload list
plus write timestamp. -/
structure HistEntry where
  payload : List FRec
  timestamp : Int
deriving DecidableEq

/-- A stored `latest` cache file: single-record payload plus write
timestamp. -/
structure LatestEntry where
  payload : FRec
  timestamp : Int
deriving DecidableEq

/-- State visible to `LotteryDataFetcher` for one game type: the
`history_N` cache files keyed by `N`, the `latest` cache file, the
behaviour of `LotteryAPIClient.fetch_data` as a function of its `periods`
argument, the clock, the TTL, and the configured default `periods`. -/
structure FetchWorld where
  histCache : Nat → Option HistEntry
  latestCache : Option LatestEntry
  apiHist : Nat → Option (List FRec)
  now : Int
  ttl : Int
  defaultPeriods : Nat

/-- `periods = periods or self.periods`: `None` and 0 both select the
configured default. -/
def resolvePeriods (pQ : Option Nat) (dflt : Nat) : Nat :=
  match pQ with
  | none => dflt
  | some 0 => dflt
  | some (n + 1) => n + 1

/-- Freshness test `now - timestamp < timedelta(hours=ttl_hours)` used by
`is_cache_valid` as seen from the fetcher. -/
def FetchWorld.fresh (w : FetchWorld) (ts : Int) : Bool :=
  decide (w.now - ts < w.ttl)

/-- Step 1 of `LotteryDataFetcher.fetch_data`: the valid-cache fast path.
It fires when `is_cache_valid` holds and the loaded payload is truthy
with at least `periods` records, and returns the first `periods`
records. -/
def histCacheHit (w : FetchWorld) (periods : Nat) : Option (List FRec) :=
  match w.histCache periods with
  | none => none
  | some e =>
    if w.fresh e.timestamp ∧ e.payload ≠ [] ∧ periods ≤ e.payload.length
    then some (e.payload.take periods) else none

/-- `CacheManager.save_cache` for a `history_N` key: overwrite with the
new payload stamped `now`. -/
def saveHist (w : FetchWorld) (periods : Nat) (l : List FRec) : FetchWorld :=
  { w with histCache := fun k => if k = periods then some ⟨l, w.now⟩ else w.histCache k }

/-- The stale-cache fallback of `LotteryDataFetcher.fetch_data` (the
`if not api_data` branch): a truthy cached payload is returned, truncated
only when it has at least `periods` records; otherwise the call yields
`None`. -/
def staleFallback (w : FetchWorld) (periods : Nat) :
    Option (List FRec) × FetchWorld :=
  match w.histCache periods with
  | none => (none, w)
  | some e =>
    if e.payload = [] then (none, w)
    else if periods ≤ e.payload.length then (some (e.payload.take periods), w)
    else (some e.payload, w)

/-- Body of `LotteryDataFetcher.fetch_data` after the
`periods = periods or self.periods` line: valid-cache fast path, then the
API, then the stale fallback; a non-empty API result is saved under the
`history_{periods}` key and returned in full. -/
def fetchDataR (w : FetchWorld) (periods : Nat) :
    Option (List FRec) × FetchWorld :=
  match histCacheHit w periods with
  | some l => (some l, w)
  | none =>
    match w.apiHist periods with
    | none => staleFallback w periods
    | some [] => staleFallback w periods
    | some (r :: l) => (some (r :: l), saveHist w periods (r :: l))

/-- `LotteryDataFetcher.fetch_data`. -/
def fetch_data (w : FetchWorld) (pQ : Option Nat) :
    Option (List FRec) × FetchWorld :=
  fetchDataR w (resolvePeriods pQ w.defaultPeriods)

/-- The API path of `LotteryDataFetcher.fetch_latest`:
`LotteryAPIClient.fetch_latest` is `fetch_data(type, periods=1)` followed
by `records[0] if records else None`; a truthy result is saved to the
`latest` key. -/
def fetchLatestApi (w : FetchWorld) : Option FRec × FetchWorld :=
  match w.apiHist 1 with
  | none => (none, w)
  | some [] => (none, w)
  | some (r :: _) => (some r, { w with latestCache := some ⟨r, w.now⟩ })

/-- `LotteryDataFetcher.fetch_latest`: cache-first single-record lookup
(a loaded record dict is always truthy). -/
def fetch_latest (w : FetchWorld) : Option FRec × FetchWorld :=
  match w.latestCache with
  | some e => if w.fresh e.timestamp then (some e.payload, w) else fetchLatestApi w
  | none => fetchLatestApi w

/-- Body of `LotteryDataFetcher.get_analysis_data` after its
`periods = periods or self.periods` line: fetch `periods + 5` records,
return them unchanged when fewer than 2 came back, else the slice
`all_data[1 : periods + 1]`. -/
def getAnalysisDataR (w : FetchWorld) (periods : Nat) :
    Option (List FRec) × FetchWorld :=
  let res := fetch_data w (some (periods + 5))
  match res.1 with
  | none => (none, res.2)
  | some l =>
    if l.length < 2 then (some l, res.2)
    else (some ((l.drop 1).take periods), res.2)

/-- `LotteryDataFetcher.get_analysis_data`. -/
def get_analysis_data (w : FetchWorld) (pQ : Option Nat) :
    Option (List FRec) × FetchWorld :=
  getAnalysisDataR w (resolvePeriods pQ w.defaultPeriods)

/-- Store holding a single expired rolling-history entry under the
`history_30` key that `fetch_data` writes. -/
def c9Store : CacheStore :=
  fun lt ct => if lt = "ssq" ∧ ct = "history_30" then some 0 else none

/-- Concrete world for the C10 witness: empty cache, an API that returns
a single record whatever limit is requested. -/
def c10World : FetchWorld :=
  { histCache := fun _ => none, latestCache := none,
    apiHist := fun _ => some [⟨"2024001"⟩],
    now := 0, ttl := 24, defaultPeriods := 30 }

/-- Concrete world for the C4 witness: an expired history entry with two
records, and an API that fails. -/
def c4World : FetchWorld :=
  { histCache := fun k =>
      if k = 30 then some ⟨[⟨"2024002"⟩, ⟨"2024001"⟩], 0⟩ else none,
    latestCache := none, apiHist := fun _ => none,
    now := 1000, ttl := 24, defaultPeriods := 30 }

/-- Concrete world for the C4 counterexample: the `history_30` cache
entry exists but stores an empty list, and the API fails. -/
def c4EmptyWorld : FetchWorld :=
  { histCache := fun k => if k = 30 then some ⟨[], 0⟩ else none,
    latestCache := none, apiHist := fun _ => none,
    now := 1000, ttl := 24, defaultPeriods := 30 }

/-- A source that answers 409 on every attempt. -/
def allRate : Nat → FetchResp :=
  fun _ => FetchResp.rateLimit

/-- A source that raises a `RequestException` on every attempt. -/
def allErr : Nat → FetchResp :=
  fun _ => FetchResp.netErr

/-- The validity predicate claimed for ssq records: exactly 6 primary
numbers in 1..33, strictly ascending, and a secondary number in 1..16. -/
def ssqClaimValid (r : SsqRec) : Prop :=
  r.red_balls.length = 6 ∧ (∀ n ∈ r.red_balls, 1 ≤ n ∧ n ≤ 33) ∧
  List.Chain' (· < ·) r.red_balls ∧ 1 ≤ r.blue_ball ∧ r.blue_ball ≤ 16

instance (r : SsqRec) : Decidable (ssqClaimValid r) := by
  unfold ssqClaimValid
  infer_instance

/-- Table rows for the C1 witness: two header rows and one well-formed
ssq row. -/
def c1Rows : List (List String) :=
  [[], [], ["2024001", "01", "02", "03", "04", "05", "06", "07"]]

/-- The record parsed from `c1Rows` (the sale cell is the row's own index
5 cell, the date cell holds no date). -/
def c1Rec : SsqRec :=
  { period := "2024001", date := "", red_balls := [1, 2, 3, 4, 5, 6],
    blue_ball := 7, sale_amount := 5, pool_amount := 0 }

/-- Table rows for the C1 counterexample: one row whose sixth red cell is
99 (out of the 1..33 range) and whose blue cell is 0 (out of 1..16). -/
def c1BadRows : List (List String) :=
  [[], [], ["2024001", "01", "02", "03", "04", "05", "99", "00"]]

/-- Rows for the C6 counterexample: the same well-formed ssq row appears
twice in the fetched table. -/
def c6Rows : List (List String) :=
  [[], [], ["2024002", "01", "02", "03", "04", "05", "06", "07"],
   ["2024002", "01", "02", "03", "04", "05", "06", "07"]]

/-- World for the C8 witness: the API returns three records. -/
def c8wWorld : FetchWorld :=
  { histCache := fun _ => none, latestCache := none,
    apiHist := fun _ => some [⟨"2024003"⟩, ⟨"2024002"⟩, ⟨"2024001"⟩],
    now := 0, ttl := 24, defaultPeriods := 30 }

/-- World for the C8 counterexample: empty caches and an API that returns
a single record — the latest draw — whatever limit is requested. -/
def c8World : FetchWorld :=
  { histCache := fun _ => none, latestCache := none,
    apiHist := fun _ => some [⟨"2024100"⟩],
    now := 0, ttl := 24, defaultPeriods := 30 }

/-! Helper lemmas shared by several claims. -/

theorem pySorted_sorted (l : List Nat) : List.Sorted (· ≤ ·) (pySorted l) :=
  List.sorted_insertionSort _ l

theorem pySorted_length (l : List Nat) : (pySorted l).length = l.length :=
  List.length_insertionSort _ l

theorem pySortedInt_sorted (l : List Int) : List.Sorted (· ≤ ·) (pySortedInt l) :=
  List.sorted_insertionSort _ l

theorem pySortedInt_length (l : List Int) : (pySortedInt l).length = l.length :=
  List.length_insertionSort _ l

/-- C7: `is_cache_valid` returns false when no entry exists; with an
entry it returns false exactly when `now - timestamp ≥ ttl`; in
particular an entry whose age equals the TTL exactly is invalid. -/
theorem is_cache_valid_boundary (s : CacheStore) (now ttl : Int) (lt ct : String) :
    (s lt ct = none → is_cache_valid s now ttl lt ct = false) ∧
    (∀ ts, s lt ct = some ts →
      (is_cache_valid s now ttl lt ct = false ↔ ttl ≤ now - ts)) ∧
    (∀ ts, s lt ct = some ts → now - ts = ttl →
      is_cache_valid s now ttl lt ct = false) := by
  refine ⟨fun h => ?_, fun ts h => ?_, fun ts h hb => ?_⟩
  · unfold is_cache_valid
    rw [h]
  · unfold is_cache_valid
    rw [h]
    simp only [decide_eq_false_iff_not, not_lt]
  · unfold is_cache_valid
    rw [h]
    simp only [decide_eq_false_iff_not, not_lt]
    omega

/-- Witness for C7 at a concrete store: an entry written at time 0 probed
at exactly its TTL of 24 is already invalid. -/
theorem is_cache_valid_boundary_witness :
    is_cache_valid (fun lt ct => if lt = "ssq" ∧ ct = "latest" then some 0 else none)
      24 24 "ssq" "latest" = false :=
  ((is_cache_valid_boundary
      (fun lt ct => if lt = "ssq" ∧ ct = "latest" then some 0 else none)
      24 24 "ssq" "latest").2.1 0 (by simp)).mpr (by omega)

/-- C9 (amended): `clear_expired_cache` keeps every valid entry, removes
an invalid entry exactly when its key is one of the three fixed kinds
`latest`/`history`/`statistics` of a supported game type, and leaves
entries under any other kind — such as the `history_N` keys written by
`fetch_data` — untouched. -/
theorem clear_expired_cache_fixed_kinds (s : CacheStore) (now ttl : Int)
    (lt ct : String) :
    (is_cache_valid s now ttl lt ct = true →
      clear_expired_cache s now ttl lt ct = s lt ct) ∧
    ((lt = "ssq" ∨ lt = "dlt") →
     (ct = "latest" ∨ ct = "history" ∨ ct = "statistics") →
     is_cache_valid s now ttl lt ct = false →
      clear_expired_cache s now ttl lt ct = none) ∧
    (ct ≠ "latest" → ct ≠ "history" → ct ≠ "statistics" →
      clear_expired_cache s now ttl lt ct = s lt ct) := by
  unfold clear_expired_cache is_cache_valid
  refine ⟨fun hv => ?_, fun hlt hct hv => ?_, fun h1 h2 h3 => ?_⟩
  · cases hs : s lt ct with
    | none => rfl
    | some ts =>
      rw [hs] at hv
      simp only [decide_eq_true_eq] at hv
      dsimp only
      rw [if_neg]
      intro hcond
      exact hcond.2.2 hv
  · cases hs : s lt ct with
    | none => rfl
    | some ts =>
      rw [hs] at hv
      simp only [decide_eq_false_iff_not] at hv
      dsimp only
      rw [if_pos ⟨hlt, hct, hv⟩]
  · cases hs : s lt ct with
    | none => rfl
    | some ts =>
      dsimp only
      rw [if_neg]
      intro hcond
      rcases hcond.2.1 with h | h | h
      exacts [h1 h, h2 h, h3 h]

/-- Witness for C9 at a concrete store: a fresh `latest` entry survives
the sweep. -/
theorem clear_expired_cache_fixed_kinds_witness :
    clear_expired_cache (fun lt ct => if lt = "ssq" ∧ ct = "latest" then some 0 else none)
      1 24 "ssq" "latest" =
      (fun lt ct => if lt = "ssq" ∧ ct = "latest" then some 0 else none) "ssq" "latest" :=
  (clear_expired_cache_fixed_kinds
      (fun lt ct => if lt = "ssq" ∧ ct = "latest" then some 0 else none)
      1 24 "ssq" "latest").1 (by decide)

/-- C9 counterexample: the expired `history_30` entry fails
`is_cache_valid`, yet after `clear_expired_cache` it is still in the
store (the sweep only visits the kinds `latest`, `history`,
`statistics`). -/
theorem clear_expired_cache_counterexample :
    is_cache_valid c9Store 100 10 "ssq" "history_30" = false ∧
    clear_expired_cache c9Store 100 10 "ssq" "history_30" = some 0 := by
  constructor <;> decide

/-- C5: when the extracted maximum remote period equals the period of
the head of the local rolling history, `update_to_latest` returns the
history unchanged and performs no write — whatever the single-period
fetch would have yielded; hence two consecutive calls under the same
remote state both return the same, byte-identical history. -/
theorem update_to_latest_idempotent {α : Type} (periodOf : α → String)
    (e0 : α) (rest : List α) (matchesQ : Option (List String)) (lp : String)
    (fetched fetched' : Option (List α))
    (hlp : getLatestPeriod matchesQ = some lp)
    (hhead : periodOf e0 = lp) :
    updateToLatest periodOf (e0 :: rest) matchesQ fetched = (e0 :: rest, false) ∧
    updateToLatest periodOf (e0 :: rest) matchesQ fetched' = (e0 :: rest, false) := by
  unfold updateToLatest
  rw [hlp]
  simp [hhead]

/-- Witness for C5 at a concrete history and landing page. -/
theorem update_to_latest_idempotent_witness :
    updateToLatest (fun s : String => s) ["2024001"] (some ["2024001"])
        none = (["2024001"], false) ∧
    updateToLatest (fun s : String => s) ["2024001"] (some ["2024001"])
        (some ["2024002"]) = (["2024001"], false) :=
  update_to_latest_idempotent (fun s : String => s) "2024001" []
    (some ["2024001"]) "2024001" none (some ["2024002"]) rfl rfl

/-- C10: when the rolling-history cache fast path does not fire and the
API succeeds with a non-empty list, `fetch_data` saves and returns that
list in full, with no minimum-length check (so a successful call may
return fewer than `periods` records); the valid-cache-hit path returns a
`take periods` of the cached payload, and the stale path truncates only
when the payload is long enough. -/
theorem fetch_data_network_full (w : FetchWorld) (pQ : Option Nat)
    (periods : Nat) (hp : resolvePeriods pQ w.defaultPeriods = periods) :
    (∀ r l, histCacheHit w periods = none → w.apiHist periods = some (r :: l) →
      fetch_data w pQ = (some (r :: l), saveHist w periods (r :: l))) ∧
    (∀ l, histCacheHit w periods = some l →
      fetch_data w pQ = (some l, w) ∧
      ∃ e, w.histCache periods = some e ∧ l = e.payload.take periods) ∧
    (∀ e, histCacheHit w periods = none →
      (w.apiHist periods = none ∨ w.apiHist periods = some []) →
      w.histCache periods = some e → e.payload ≠ [] →
      ¬ periods ≤ e.payload.length →
      fetch_data w pQ = (some e.payload, w)) := by
  unfold fetch_data
  rw [hp]
  refine ⟨fun r l hmiss hapi => ?_, fun l hhit => ?_, fun e hmiss hapi he hne hshort => ?_⟩
  · unfold fetchDataR
    rw [hmiss, hapi]
  · unfold fetchDataR
    rw [hhit]
    refine ⟨rfl, ?_⟩
    unfold histCacheHit at hhit
    cases hs : w.histCache periods with
    | none => rw [hs] at hhit; exact absurd hhit (by simp)
    | some en =>
      rw [hs] at hhit
      dsimp only at hhit
      refine ⟨en, rfl, ?_⟩
      by_cases hc : w.fresh en.timestamp ∧ en.payload ≠ [] ∧ periods ≤ en.payload.length
      · rw [if_pos hc] at hhit
        exact (Option.some.injEq _ _ ▸ hhit).symm
      · rw [if_neg hc] at hhit
        exact absurd hhit (by simp)
  · unfold fetchDataR
    rw [hmiss]
    have hstale : staleFallback w periods = (some e.payload, w) := by
      unfold staleFallback
      rw [he]
      dsimp only
      rw [if_neg hne, if_neg hshort]
    cases hapi with
    | inl h => rw [h]; exact hstale
    | inr h => rw [h]; exact hstale

/-- Witness for C10: asking for 30 periods returns the one-record API
answer in full — strictly shorter than `periods`. -/
theorem fetch_data_network_full_witness :
    fetch_data c10World (some 30) =
      (some [⟨"2024001"⟩], saveHist c10World 30 [⟨"2024001"⟩]) ∧
    [(⟨"2024001"⟩ : FRec)].length < 30 :=
  ⟨(fetch_data_network_full c10World (some 30) 30 rfl).1 ⟨"2024001"⟩ []
      rfl rfl,
    by decide⟩

/-- C4 (amended): when the cache fast path does not fire and the API
yields no data, `fetch_data` returns the cached payload — fresh or stale —
whenever that payload is a non-empty list (truncating only when it is
long enough), and returns `None` both when no cache entry exists and when
the entry's payload is the empty list; the call returns a value in every
case rather than raising. -/
theorem fetch_data_stale_fallback (w : FetchWorld) (pQ : Option Nat)
    (periods : Nat) (hp : resolvePeriods pQ w.defaultPeriods = periods)
    (hmiss : histCacheHit w periods = none)
    (hapi : w.apiHist periods = none ∨ w.apiHist periods = some []) :
    (∀ e, w.histCache periods = some e → e.payload ≠ [] →
      fetch_data w pQ =
        (some (if periods ≤ e.payload.length then e.payload.take periods
               else e.payload), w)) ∧
    (w.histCache periods = none → fetch_data w pQ = (none, w)) ∧
    (∀ e, w.histCache periods = some e → e.payload = [] →
      fetch_data w pQ = (none, w)) := by
  unfold fetch_data
  rw [hp]
  have hstep : fetchDataR w periods = staleFallback w periods := by
    unfold fetchDataR
    rw [hmiss]
    cases hapi with
    | inl h => rw [h]
    | inr h => rw [h]
  rw [hstep]
  unfold staleFallback
  refine ⟨fun e he hne => ?_, fun he => ?_, fun e he hnil => ?_⟩
  · rw [he]
    dsimp only
    rw [if_neg hne]
    by_cases hlen : periods ≤ e.payload.length
    · rw [if_pos hlen, if_pos hlen]
    · rw [if_neg hlen, if_neg hlen]
  · rw [he]
  · rw [he]
    dsimp only
    rw [if_pos hnil]

/-- Witness for C4: with the API down, the expired two-record entry is
returned as-is (shorter than `periods`, so untruncated). -/
theorem fetch_data_stale_fallback_witness :
    fetch_data c4World (some 30) =
      (some [⟨"2024002"⟩, ⟨"2024001"⟩], c4World) :=
  (fetch_data_stale_fallback c4World (some 30) 30 rfl (by decide)
      (Or.inl rfl)).1 ⟨[⟨"2024002"⟩, ⟨"2024001"⟩], 0⟩ (by decide) (by decide)

/-- C4 counterexample: a cache entry for the history key exists, the
network path fails, yet `fetch_data` returns `None` — the claim's
"returns absent only when no cached entry exists at all" does not hold
for an entry whose payload is empty. -/
theorem fetch_data_stale_fallback_counterexample :
    (c4EmptyWorld.histCache 30).isSome = true ∧
    (fetch_data c4EmptyWorld (some 30)).1 = none := by
  constructor <;> decide

/-- One-step unfolding of the retry loop. -/
theorem fetchRetryAux_step (m : Nat) (resp : Nat → FetchResp) (rem attempt : Nat) :
    fetchRetryAux m resp (rem + 1) attempt =
      match resp attempt with
      | .ok t => ⟨some t, [], 1⟩
      | .rateLimit =>
        ⟨(fetchRetryAux m resp rem (attempt + 1)).result,
         5 * (attempt + 1) :: (fetchRetryAux m resp rem (attempt + 1)).waits,
         (fetchRetryAux m resp rem (attempt + 1)).attempts + 1⟩
      | .netErr =>
        if attempt < m - 1 then
          ⟨(fetchRetryAux m resp rem (attempt + 1)).result,
           3 * (attempt + 1) :: (fetchRetryAux m resp rem (attempt + 1)).waits,
           (fetchRetryAux m resp rem (attempt + 1)).attempts + 1⟩
        else
          ⟨(fetchRetryAux m resp rem (attempt + 1)).result,
           (fetchRetryAux m resp rem (attempt + 1)).waits,
           (fetchRetryAux m resp rem (attempt + 1)).attempts + 1⟩ := rfl

/-- Unrolling of the retry loop under constant 409s: the sleeps are
`5 * (attempt + 1)` for each attempt made. -/
theorem fetchRetryAux_allRate (m : Nat) : ∀ (rem attempt : Nat),
    fetchRetryAux m allRate rem attempt =
      ⟨none, (List.range rem).map (fun i => 5 * (attempt + i + 1)), rem⟩
  | 0, _ => rfl
  | rem + 1, attempt => by
    have ih := fetchRetryAux_allRate m rem (attempt + 1)
    rw [fetchRetryAux_step]
    dsimp only [allRate]
    rw [ih]
    dsimp only
    rw [List.range_succ_eq_map, List.map_cons, List.map_map]
    congr 1
    congr 1
    apply List.map_congr_left
    intro i _
    simp only [Function.comp_apply]
    omega

/-- Unrolling of the retry loop under constant exceptions: sleeps are
`3 * (attempt + 1)` on all but the final attempt. -/
theorem fetchRetryAux_allErr (m : Nat) : ∀ (rem attempt : Nat), attempt + rem = m →
    fetchRetryAux m allErr rem attempt =
      ⟨none, (List.range (rem - 1)).map (fun i => 3 * (attempt + i + 1)), rem⟩
  | 0, _, _ => rfl
  | 1, attempt, h => by
    rw [fetchRetryAux_step]
    dsimp only [allErr]
    rw [if_neg (by omega)]
    rfl
  | rem + 2, attempt, h => by
    have ih := fetchRetryAux_allErr m (rem + 1) (attempt + 1) (by omega)
    rw [fetchRetryAux_step]
    dsimp only [allErr]
    rw [if_pos (by omega), ih]
    dsimp only
    have h21 : rem + 2 - 1 = rem + 1 := rfl
    have h11 : rem + 1 - 1 = rem := rfl
    rw [h21, h11, List.range_succ_eq_map, List.map_cons, List.map_map]
    congr 1
    congr 1
    apply List.map_congr_left
    intro i _
    simp only [Function.comp_apply]
    omega

/-- The loop makes at most `rem` further attempts. -/
theorem fetchRetryAux_attempts_le (m : Nat) (resp : Nat → FetchResp) :
    ∀ (rem attempt : Nat), (fetchRetryAux m resp rem attempt).attempts ≤ rem
  | 0, _ => Nat.le_refl 0
  | rem + 1, attempt => by
    have ih := fetchRetryAux_attempts_le m resp rem (attempt + 1)
    rw [fetchRetryAux_step]
    cases resp attempt with
    | ok t => exact Nat.succ_le_succ (Nat.zero_le rem)
    | rateLimit => exact Nat.succ_le_succ ih
    | netErr =>
      by_cases hc : attempt < m - 1
      · rw [if_pos hc]
        exact Nat.succ_le_succ ih
      · rw [if_neg hc]
        exact Nat.succ_le_succ ih

/-- Under uniformly failing responses the loop runs to exhaustion and
yields `None`. -/
theorem fetchRetryAux_all_fail (m : Nat) (resp : Nat → FetchResp) :
    ∀ (rem attempt : Nat), (∀ a, (resp a).isOk = false) →
      (fetchRetryAux m resp rem attempt).result = none ∧
      (fetchRetryAux m resp rem attempt).attempts = rem
  | 0, _, _ => ⟨rfl, rfl⟩
  | rem + 1, attempt, hfail => by
    have ih := fetchRetryAux_all_fail m resp rem (attempt + 1) hfail
    rw [fetchRetryAux_step]
    cases hr : resp attempt with
    | ok t =>
      have hko := hfail attempt
      rw [hr] at hko
      exact absurd hko (by simp [FetchResp.isOk])
    | rateLimit => exact ⟨ih.1, by rw [ih.2]⟩
    | netErr =>
      by_cases hc : attempt < m - 1
      · rw [if_pos hc]
        exact ⟨ih.1, by rw [ih.2]⟩
      · rw [if_neg hc]
        exact ⟨ih.1, by rw [ih.2]⟩

/-- C2 (amended): on constant rate-limit signals `_fetch_with_retry`
retries without raising, up to `max_retries` attempts, and the wait
before the next attempt is linear — `5 * (attempt + 1)` seconds — not
exponential. -/
theorem fetch_with_retry_rate_limit_linear (m : Nat) :
    fetchWithRetry m allRate =
      ⟨none, (List.range m).map (fun a => 5 * (a + 1)), m⟩ := by
  unfold fetchWithRetry
  rw [fetchRetryAux_allRate m m 0]
  congr 1
  apply List.map_congr_left
  intro i _
  omega

/-- C2 counterexample: with the default `max_retries = 3`, the recorded
rate-limit waits are 5, 10, 15 — not the exponential `5 * 2 ^ attempt`
schedule 5, 10, 20 the claim describes. -/
theorem fetch_with_retry_not_exponential :
    (fetchWithRetry 3 allRate).waits = [5, 10, 15] ∧
    (fetchWithRetry 3 allRate).waits ≠ [5 * 2 ^ 0, 5 * 2 ^ 1, 5 * 2 ^ 2] := by
  constructor <;> decide

/-- C3 (amended): the fetch layer never exceeds `max_retries` attempts
and, when every response fails, returns `None` after exactly
`max_retries` attempts without raising; the backoff waits are strictly
increasing for a sequence consisting entirely of rate-limit signals and
for one consisting entirely of transient errors (a mixed sequence can
break strictness, see the counterexample). -/
theorem fetch_with_retry_bounded_increasing :
    (∀ (m : Nat) (resp : Nat → FetchResp),
      (fetchWithRetry m resp).attempts ≤ m) ∧
    (∀ (m : Nat) (resp : Nat → FetchResp), (∀ a, (resp a).isOk = false) →
      (fetchWithRetry m resp).result = none ∧
      (fetchWithRetry m resp).attempts = m) ∧
    (∀ m : Nat, List.Pairwise (· < ·) (fetchWithRetry m allRate).waits) ∧
    (∀ m : Nat, List.Pairwise (· < ·) (fetchWithRetry m allErr).waits) := by
  refine ⟨fun m resp => fetchRetryAux_attempts_le m resp m 0,
    fun m resp hfail => fetchRetryAux_all_fail m resp m 0 hfail,
    fun m => ?_, fun m => ?_⟩
  · unfold fetchWithRetry
    rw [fetchRetryAux_allRate m m 0]
    exact (List.pairwise_lt_range m).map _ (fun a b hab => by omega)
  · unfold fetchWithRetry
    rw [fetchRetryAux_allErr m m 0 (by omega)]
    exact (List.pairwise_lt_range (m - 1)).map _ (fun a b hab => by omega)

/-- Witness for C3 at `max_retries = 2` under constant 409s. -/
theorem fetch_with_retry_bounded_increasing_witness :
    (fetchWithRetry 2 allRate).result = none ∧
    (fetchWithRetry 2 allRate).attempts = 2 :=
  fetch_with_retry_bounded_increasing.2.1 2 allRate (fun _ => rfl)

/-- C3 counterexample: with `max_retries = 4` and a sequence made only of
rate-limit signals and transient errors (two 409s then exceptions), the
recorded backoff waits are 5, 10, 9 — not strictly increasing. -/
theorem fetch_with_retry_mixed_not_increasing :
    (fetchWithRetry 4 (fun a => if a < 2 then FetchResp.rateLimit
        else FetchResp.netErr)).waits = [5, 10, 9] ∧
    ¬ List.Pairwise (· < ·)
        (fetchWithRetry 4 (fun a => if a < 2 then FetchResp.rateLimit
          else FetchResp.netErr)).waits := by
  constructor <;> decide

/-- C1 (amended): the bulk parsers always emit exactly 6 (ssq) resp. 5+2
(dlt) ball values, sorted nondecreasingly, and the single-page ssq parser
always emits 6 sorted reds, while the API red-ball parser emits a sorted
list of at most 6 values; no range check, duplicate rejection, or (for
the API and single-page secondary values) count check is performed. -/
theorem parser_ball_shape :
    (∀ rows r, r ∈ parse_ssq_table rows →
      r.red_balls.length = 6 ∧ List.Sorted (· ≤ ·) r.red_balls) ∧
    (∀ rows r, r ∈ parse_dlt_table rows →
      r.front_balls.length = 5 ∧ r.back_balls.length = 2 ∧
      List.Sorted (· ≤ ·) r.front_balls ∧ List.Sorted (· ≤ ·) r.back_balls) ∧
    (∀ fp pm dm balls sm qm r, parseSsqPage fp pm dm balls sm qm = some r →
      r.red_balls.length = 6 ∧ List.Sorted (· ≤ ·) r.red_balls) ∧
    (∀ f1 f2 f3 f4 f5 f6, (parse_reds f1 f2 f3 f4 f5 f6).length ≤ 6 ∧
      List.Sorted (· ≤ ·) (parse_reds f1 f2 f3 f4 f5 f6)) := by
  refine ⟨?_, ?_, ?_, ?_⟩
  · intro rows r hr
    unfold parse_ssq_table at hr
    rcases List.mem_filterMap.mp hr with ⟨cells, _, hc⟩
    unfold parseSsqRow at hc
    dsimp only at hc
    split_ifs at hc with h1 h2 h3
    all_goals
      rw [Option.some.injEq] at hc
      subst hc
      rw [not_not] at h3
      exact ⟨(pySorted_length _).trans h3, pySorted_sorted _⟩
  · intro rows r hr
    unfold parse_dlt_table at hr
    rcases List.mem_filterMap.mp hr with ⟨cells, _, hc⟩
    unfold parseDltRow at hc
    dsimp only at hc
    split_ifs at hc with h1 h2 h3 h4
    all_goals
      rw [Option.some.injEq] at hc
      subst hc
      rw [not_not] at h3 h4
      exact ⟨(pySorted_length _).trans h3, (pySorted_length _).trans h4,
        pySorted_sorted _, pySorted_sorted _⟩
  · intro fp pm dm balls sm qm r hc
    unfold parseSsqPage at hc
    dsimp only at hc
    split_ifs at hc with h7 h6
    · rw [Option.some.injEq] at hc
      subst hc
      refine ⟨?_, pySorted_sorted _⟩
      rw [pySorted_length, List.length_map, List.length_take]
      omega
    · rw [Option.some.injEq] at hc
      subst hc
      refine ⟨?_, pySorted_sorted _⟩
      rw [pySorted_length, List.length_map, List.length_take]
      omega
  · intro f1 f2 f3 f4 f5 f6
    constructor
    · unfold parse_reds
      rw [pySortedInt_length]
      exact (List.length_filterMap_le _ _).trans (by simp)
    · exact pySortedInt_sorted _

/-- Witness for C1 on a concrete well-formed row. -/
theorem parser_ball_shape_witness :
    c1Rec.red_balls.length = 6 ∧ List.Sorted (· ≤ ·) c1Rec.red_balls :=
  parser_ball_shape.1 c1Rows c1Rec (by decide)

/-- C1 counterexample: the bulk ssq parser emits a record with an
out-of-range red ball and a zero blue ball, and the API red-ball parser
emits a 5-element list when a field is missing — records violating the
claimed invariant are produced. -/
theorem parser_ball_shape_counterexample :
    (∃ r ∈ parse_ssq_table c1BadRows, ¬ ssqClaimValid r) ∧
    (parse_reds (some 1) (some 2) (some 3) (some 4) (some 5) none).length ≠ 6 := by
  constructor <;> decide

/-- Case analysis of `update_to_latest`: every call either returns the
existing history unwritten, or prepends the head of a successfully
fetched non-empty parse result and truncates to 30. -/
theorem updateToLatest_cases {α : Type} (periodOf : α → String)
    (existing : List α) (mQ : Option (List String))
    (fetched : Option (List α)) :
    ((updateToLatest periodOf existing mQ fetched).2 = false ∧
      (updateToLatest periodOf existing mQ fetched).1 = existing) ∨
    (∃ nd tl, fetched = some (nd :: tl) ∧
      updateToLatest periodOf existing mQ fetched =
        (nd :: existing.take 29, true)) := by
  unfold updateToLatest
  cases hlp : getLatestPeriod mQ with
  | none => exact Or.inl ⟨rfl, rfl⟩
  | some lp =>
    dsimp only
    cases fetched with
    | none =>
      cases existing with
      | nil => exact Or.inl ⟨rfl, rfl⟩
      | cons e0 rest =>
        dsimp only
        by_cases he : periodOf e0 = lp
        · rw [if_pos he]
          exact Or.inl ⟨rfl, rfl⟩
        · rw [if_neg he]
          exact Or.inl ⟨rfl, rfl⟩
    | some l =>
      cases l with
      | nil =>
        cases existing with
        | nil => exact Or.inl ⟨rfl, rfl⟩
        | cons e0 rest =>
          dsimp only
          by_cases he : periodOf e0 = lp
          · rw [if_pos he]
            exact Or.inl ⟨rfl, rfl⟩
          · rw [if_neg he]
            exact Or.inl ⟨rfl, rfl⟩
      | cons nd tl =>
        cases existing with
        | nil => exact Or.inr ⟨nd, tl, rfl, rfl⟩
        | cons e0 rest =>
          dsimp only
          by_cases he : periodOf e0 = lp
          · rw [if_pos he]
            exact Or.inl ⟨rfl, rfl⟩
          · rw [if_neg he]
            exact Or.inr ⟨nd, tl, rfl, rfl⟩

/-- C6 (amended): `fetch_history` sorts its output nonincreasingly by
integer period but neither deduplicates nor truncates it; the prepend of
`update_to_latest` bounds the written history by 30 records, and it
preserves strictly-decreasing periods only when the new record's period
key exceeds every existing one — neither condition is checked by the
code. -/
theorem rolling_history_shape :
    (∀ mQ rQ, List.Sorted periodDescRel (fetch_history mQ rQ)) ∧
    (∀ (α : Type) (periodOf : α → String) (existing : List α) mQ fetched,
      (updateToLatest periodOf existing mQ fetched).2 = true →
      (updateToLatest periodOf existing mQ fetched).1.length ≤ 30) ∧
    (∀ (α : Type) (periodOf : α → String) (key : α → Nat) (existing : List α)
        mQ (nd : α) (tl : List α),
      List.Pairwise (fun a b => key b < key a) existing →
      (∀ b ∈ existing, key b < key nd) →
      (updateToLatest periodOf existing mQ (some (nd :: tl))).2 = true →
      List.Pairwise (fun a b => key b < key a)
        (updateToLatest periodOf existing mQ (some (nd :: tl))).1) := by
  refine ⟨fun mQ rQ => ?_, fun α periodOf existing mQ fetched hw => ?_,
    fun α periodOf key existing mQ nd tl hpw hgt hw => ?_⟩
  · unfold fetch_history
    cases getLatestPeriod mQ with
    | none => exact List.sorted_nil
    | some lp =>
      cases rQ with
      | none => exact List.sorted_nil
      | some rows => exact List.sorted_insertionSort periodDescRel _
  · rcases updateToLatest_cases periodOf existing mQ fetched with
      ⟨hf, _⟩ | ⟨nd, tl, _, heq⟩
    · rw [hf] at hw
      exact absurd hw (by simp)
    · rw [heq]
      have := List.length_take_le 29 existing
      simp only [List.length_cons]
      omega
  · rcases updateToLatest_cases periodOf existing mQ (some (nd :: tl)) with
      ⟨hf, _⟩ | ⟨nd2, tl2, hfe, heq⟩
    · rw [hf] at hw
      exact absurd hw (by simp)
    · rw [Option.some.injEq] at hfe
      rw [heq]
      cases hfe
      rw [List.pairwise_cons]
      refine ⟨fun b hb => hgt b (List.mem_of_mem_take hb), ?_⟩
      exact List.Pairwise.sublist (List.take_sublist _ _) hpw

/-- Witness for C6: a genuinely new record is prepended and the result
stays within the window. -/
theorem rolling_history_shape_witness :
    (updateToLatest (fun s : String => s) ["2024001"] (some ["2024002"])
      (some ["2024002"])).1.length ≤ 30 :=
  rolling_history_shape.2.1 String (fun s => s) ["2024001"] (some ["2024002"])
    (some ["2024002"]) (by decide)

/-- C6 counterexample: a fetched table with a duplicated row produces a
rolling history whose periods are neither distinct nor strictly
decreasing — `fetch_history` performs no deduplication. -/
theorem rolling_history_shape_counterexample :
    ((fetch_history (some ["100"]) (some c6Rows)).map SsqRec.period =
      ["2024002", "2024002"]) ∧
    ¬ ((fetch_history (some ["100"]) (some c6Rows)).map SsqRec.period).Nodup ∧
    ¬ List.Pairwise (fun a b => periodNum b < periodNum a)
        (fetch_history (some ["100"]) (some c6Rows)) := by
  refine ⟨by decide, by decide, by decide⟩

/-- C8 (amended): when `fetch_data` returns at least two records,
`get_analysis_data` returns the slice at offsets `1 .. periods + 1`,
which excludes the fetched head record; the head's period is absent from
the result provided no later record repeats it.  (When fewer than two
records are available the list is returned unsliced — see the
counterexample.) -/
theorem get_analysis_data_slice (w : FetchWorld) (pQ : Option Nat)
    (periods : Nat) (hp : resolvePeriods pQ w.defaultPeriods = periods)
    (r0 : FRec) (rest : List FRec)
    (hfd : (fetch_data w (some (periods + 5))).1 = some (r0 :: rest))
    (hrest : rest ≠ []) :
    (get_analysis_data w pQ).1 = some (rest.take periods) ∧
    (r0.period ∉ rest.map FRec.period →
      r0.period ∉ (rest.take periods).map FRec.period) := by
  constructor
  · unfold get_analysis_data
    rw [hp]
    unfold getAnalysisDataR
    dsimp only
    rw [hfd]
    dsimp only
    have hlen : 0 < rest.length := List.length_pos.mpr hrest
    rw [if_neg (by simp only [List.length_cons]; omega)]
    rfl
  · intro hnot hmem
    apply hnot
    rw [List.map_take] at hmem
    exact List.mem_of_mem_take hmem

/-- Witness for C8: with three fetched records and `periods = 1`, the
head is dropped and only the second record is returned. -/
theorem get_analysis_data_slice_witness :
    (get_analysis_data c8wWorld (some 1)).1 =
      some (([⟨"2024002"⟩, ⟨"2024001"⟩] : List FRec).take 1) ∧
    ((⟨"2024003"⟩ : FRec).period ∉
        ([⟨"2024002"⟩, ⟨"2024001"⟩] : List FRec).map FRec.period →
      (⟨"2024003"⟩ : FRec).period ∉
        (([⟨"2024002"⟩, ⟨"2024001"⟩] : List FRec).take 1).map FRec.period) :=
  get_analysis_data_slice c8wWorld (some 1) 1 rfl ⟨"2024003"⟩
    [⟨"2024002"⟩, ⟨"2024001"⟩] (by decide) (by decide)

/-- C8 counterexample: `fetch_data` yields a single record, so
`get_analysis_data` returns it unsliced, and its period is exactly the
period `fetch_latest` reports — the most recent draw is not excluded. -/
theorem get_analysis_data_contains_latest :
    (get_analysis_data c8World (some 30)).1 = some [⟨"2024100"⟩] ∧
    (fetch_latest ((get_analysis_data c8World (some 30)).2)).1 =
      some ⟨"2024100"⟩ ∧
    (⟨"2024100"⟩ : FRec).period ∈
      ((get_analysis_data c8World (some 30)).1.getD []).map FRec.period := by
  refine ⟨by decide, by decide, by decide⟩

end LotteryModel
